import Mathlib

/-!
Verification development for the Maccor→Biologic Modulo Bat protocol
converter (`beep/protocol/maccor_to_biologic_mb.py`).

The Python functions are embedded shallowly:

* decimal value strings are parsed into exact decimals `num / 10 ^ exp`
  (every value the claims exercise is an exact decimal, so modelling the
  Python binary floats by exact decimal arithmetic loses nothing);
* sequence records (Python `OrderedDict`s copied from the blank template)
  become a Lean structure;
* every Python exception and failing `assert` becomes an `Except.error`;
* the two passes of `_create_biologic_seqs_from_maccor_ast` become two
  explicit state machines over the step list.
-/

/-! ### Exact decimal numbers (embedding of the Python float values) -/

/-- Exact decimal number, denoting `num / 10 ^ exp`. -/
structure Dec where
  num : Int
  exp : Nat
deriving Repr, DecidableEq

/-- Value comparison `a < b` by cross multiplication (denominators are positive). -/
def Dec.lt (a b : Dec) : Prop := a.num * (10 : Int) ^ b.exp < b.num * (10 : Int) ^ a.exp

instance (a b : Dec) : Decidable (Dec.lt a b) := by unfold Dec.lt; infer_instance

/-- The denoted value is zero. -/
def Dec.isZero (a : Dec) : Prop := a.num = 0

instance (a : Dec) : Decidable (Dec.isZero a) := by unfold Dec.isZero; infer_instance

/-- The denoted value is an integer (Python `x % 1.0 == 0.0` on a decimal value). -/
def Dec.isWhole (a : Dec) : Prop := Int.emod a.num ((10 : Int) ^ a.exp) = 0

instance (a : Dec) : Decidable (Dec.isWhole a) := by unfold Dec.isWhole; infer_instance

/-- Addition. -/
def Dec.add (a b : Dec) : Dec :=
  let e := max a.exp b.exp
  ⟨a.num * (10 : Int) ^ (e - a.exp) + b.num * (10 : Int) ^ (e - b.exp), e⟩

/-- Multiplication by an integer constant. -/
def Dec.scale (k : Int) (a : Dec) : Dec := ⟨a.num * k, a.exp⟩

/-- Multiplication by `10 ^ k` (the unit rescalings `num * 1e3`, `num * 1e12`, …). -/
def Dec.mulP (a : Dec) (k : Nat) : Dec := ⟨a.num * (10 : Int) ^ k, a.exp⟩

/-- Python `int(x)`: truncation toward zero. -/
def Dec.trunc (a : Dec) : Int := Int.tdiv a.num ((10 : Int) ^ a.exp)

/-! ### Digit-string parsing -/

/-- Numeric value of a decimal digit character. -/
def digitVal (c : Char) : Nat := c.toNat - ('0').toNat

/-- Value of a digit run read in base 10. -/
def digitsToNat (ds : List Char) : Nat := ds.foldl (fun a c => a * 10 + digitVal c) 0

/-- Digits of a nonempty all-digit run, as Python `int` does (else `ValueError`). -/
def parseIntDigits : List Char → Option Int
  | [] => none
  | cs => if cs.all Char.isDigit then some ((digitsToNat cs : Int)) else none

/-- Shallow embedding of Python `int(str)` on optionally signed digit strings. -/
def parseInt (s : String) : Option Int :=
  match s.data with
  | '-' :: cs => (parseIntDigits cs).map (fun n => -n)
  | '+' :: cs => parseIntDigits cs
  | cs => parseIntDigits cs

/-- Exponent suffix `[+-]?[0-9]+` that must consume the whole remainder
(the exponent part of a Python float literal). -/
def parseExpAll : List Char → Option Int
  | '-' :: rest => (parseIntDigits rest).map (fun n => -n)
  | '+' :: rest => parseIntDigits rest
  | rest => parseIntDigits rest

/-- Scale a decimal by `10 ^ p` for a signed exponent `p`. -/
def Dec.applyExp (d : Dec) (p : Int) : Dec :=
  if 0 ≤ p then ⟨d.num * (10 : Int) ^ p.toNat, d.exp⟩ else ⟨d.num, d.exp + (-p).toNat⟩

/-- Unsigned part of a Python float literal: `d+ | d+.d* | .d+`, with an
optional `e`/`E` exponent. -/
def parseUnsigned (cs : List Char) : Option Dec :=
  let ip := cs.takeWhile Char.isDigit
  let rest := cs.dropWhile Char.isDigit
  match rest with
  | [] => if ip = [] then none else some ⟨(digitsToNat ip : Int), 0⟩
  | '.' :: rest2 =>
      let fp := rest2.takeWhile Char.isDigit
      let rest3 := rest2.dropWhile Char.isDigit
      if ip = [] ∧ fp = [] then none
      else
        let base : Dec := ⟨(digitsToNat ip : Int) * (10 : Int) ^ fp.length + (digitsToNat fp : Int), fp.length⟩
        match rest3 with
        | [] => some base
        | c :: rest4 =>
            if c = 'e' ∨ c = 'E' then (parseExpAll rest4).map (fun p => base.applyExp p) else none
  | c :: rest2 =>
      if (c = 'e' ∨ c = 'E') ∧ ip ≠ [] then
        (parseExpAll rest2).map (fun p => Dec.applyExp ⟨(digitsToNat ip : Int), 0⟩ p)
      else none

/-- Shallow embedding of Python `float(str)` on finite decimal literals,
as an exact decimal. -/
def parseDecChars (cs : List Char) : Option Dec :=
  match cs with
  | '-' :: rest => (parseUnsigned rest).map (fun d => ⟨-d.num, d.exp⟩)
  | '+' :: rest => parseUnsigned rest
  | rest => parseUnsigned rest

/-- Shallow embedding of Python `float(str)`. -/
def parseDec (s : String) : Option Dec := parseDecChars s.data

/-! ### Significant-figure detection (`_get_decimal_sig_figs`) -/

/-- Number of trailing `'0'` characters of a digit run. -/
def trailingZeros (ds : List Char) : Nat := (ds.reverse.takeWhile (fun c => c = '0')).length

/-- Scan for the regex `\.([0-9]*[1-9])`: at each `'.'` take the maximal
digit run following; the greedy group, if the run has any nonzero digit,
is the run cut after its last nonzero digit, and the search otherwise
resumes at the next character. -/
def sigFigsGo : List Char → Nat
  | [] => 0
  | c :: rest =>
      if c = '.' then
        let run := rest.takeWhile Char.isDigit
        if run.any (fun d => d != '0') then run.length - trailingZeros run
        else sigFigsGo rest
      else sigFigsGo rest

/-- Exponent group `[-+]?[0-9]+` right after an `e`/`E` (greedy, need not
reach the end of the string), for the regex `(e|E)([-+]?[0-9]+)`. -/
def parseExpGroup (cs : List Char) : Option Int :=
  match cs with
  | '-' :: rest =>
      let run := rest.takeWhile Char.isDigit
      if run = [] then none else some (-(digitsToNat run : Int))
  | '+' :: rest =>
      let run := rest.takeWhile Char.isDigit
      if run = [] then none else some ((digitsToNat run : Int))
  | rest =>
      let run := rest.takeWhile Char.isDigit
      if run = [] then none else some ((digitsToNat run : Int))

/-- Scan for the regex `(e|E)([-+]?[0-9]+)`; `0` when there is no match. -/
def p10Go : List Char → Int
  | [] => 0
  | c :: rest =>
      if c = 'e' ∨ c = 'E' then
        match parseExpGroup rest with
        | some n => n
        | none => p10Go rest
      else p10Go rest

/-- Shallow embedding of `_get_decimal_sig_figs`: explicit fractional
digits found by `\.([0-9]*[1-9])` minus the power of ten found by
`(e|E)([-+]?[0-9]+)`. -/
def getDecimalSigFigs (s : String) : Int := (sigFigsGo s.data : Int) - p10Go s.data

/-! ### Value formatting (`"{:.3f}".format`) -/

/-- Left-pad to three digits. -/
def pad3 (m : Nat) : String :=
  if m < 10 then ("00") ++ (toString m)
  else if m < 100 then ("0") ++ (toString m)
  else toString m

/-- Python `"{:.3f}".format` on an exact decimal: three decimal digits of
`round(value * 1000)`. The claims never exercise a rounding tie, so ties
round half-up here. -/
def formatF3 (d : Dec) : String :=
  let m := d.mulP 3
  let n : Int := Int.ediv (2 * m.num + (10 : Int) ^ m.exp) (2 * (10 : Int) ^ m.exp)
  (toString (Int.tdiv n 1000)) ++ (".") ++ pad3 (Int.emod n 1000).toNat

/-- Python `"{:.3f}".format` on an `int` value. -/
def formatIntF3 (n : Int) : String := (toString n) ++ (".000")

/-! ### Magnitude converters -/

/-- Shallow embedding of `_convert_volts`. -/
def convertVolts (valStr : String) : Option (String × String) :=
  match parseDec valStr with
  | none => none
  | some num =>
      let decimalSigFigs := getDecimalSigFigs valStr
      if Dec.lt num ⟨1, 0⟩ ∨ decimalSigFigs > 3 then some (formatF3 (num.mulP 3), ("mV"))
      else some (formatF3 num, ("V"))

/-- Shallow embedding of `_convert_amps`. -/
def convertAmps (valStr : String) : Option (String × String) :=
  match parseDec valStr with
  | none => none
  | some num =>
      let decimalSigFigs := getDecimalSigFigs valStr
      if Dec.lt num ⟨1, 9⟩ ∨ decimalSigFigs > 12 then some (formatF3 (num.mulP 12), ("pA"))
      else if Dec.lt num ⟨1, 6⟩ ∨ decimalSigFigs > 9 then some (formatF3 (num.mulP 9), ("nA"))
      else if Dec.lt num ⟨1, 3⟩ ∨ decimalSigFigs > 6 then some (formatF3 (num.mulP 6), ("µA"))
      else if Dec.lt num ⟨1, 0⟩ ∨ decimalSigFigs > 3 then some (formatF3 (num.mulP 3), ("mA"))
      else some (formatF3 num, ("A"))

/-! ### Time converter (`_convert_time`) -/

/-- Split a character list at a separator, keeping empty segments
(Python `str.split`). -/
def splitChar (sep : Char) : List Char → List (List Char)
  | [] => [[]]
  | c :: rest =>
      if c = sep then [] :: splitChar sep rest
      else
        match splitChar sep rest with
        | [] => [[c]]
        | seg :: segs => (c :: seg) :: segs

/-- One component of the `H:M:S` triple: blank means `0.0`, else Python `float`. -/
def parseTimePart (cs : List Char) : Option Dec :=
  if cs = [] then some ⟨0, 0⟩ else parseDecChars cs

/-- Shallow embedding of `_convert_time` on `H:M:S[.frac]` triple strings. -/
def convertTime (timeStr : String) : Option (String × String) :=
  match splitChar ':' timeStr.data with
  | [hourCs, minCs, secCs] =>
      match parseTimePart hourCs, parseTimePart minCs, parseTimePart secCs with
      | some hours, some mins, some secs =>
          if Dec.isZero mins ∧ Dec.isZero secs then
            some (formatIntF3 hours.trunc, ("hr"))
          else if Dec.isZero secs then
            some (formatIntF3 ((hours.scale 60).add mins).trunc, ("mn"))
          else if Dec.isWhole secs then
            some (formatIntF3 (((hours.scale (60 * 60)).add (mins.scale 60)).add secs).trunc, ("s"))
          else
            let totalTimeMs : Int :=
              (((hours.scale (60 * 60 * 1000)).add (mins.scale (60 * 1000))).add (secs.scale 1000)).trunc
            if totalTimeMs < 10000000000 then some (formatIntF3 totalTimeMs, ("ms"))
            else some (formatF3 ⟨totalTimeMs, 3⟩, ("s"))
      | _, _, _ => none
  | _ => none

/-! ### Sequence records

Modelled from the spec: the blank record template (`blank_seq`) is loaded
from the external `biologic_mb_schema.yaml` configuration, which is not
part of the sources. The structure below lists every field the converter
writes; fields the conversion never writes keep neutral defaults (empty
string / zero), and in particular the optional limit "jump" action flag
defaults to not being the explicit `"Goto sequence"` flag. -/
structure SeqRec where
  Ns : Int := 0
  type : String := ""
  applyIC : String := ""
  N : String := ""
  chargeDischarge : String := ""
  ctrl1_val : String := ""
  ctrl1_val_unit : String := ""
  ctrl1_val_vs : String := ""
  loop_repeat : Int := 0
  ctrl_seq : Int := 0
  lim_nb : Nat := 0
  lim1_seq : Int := 0
  lim2_seq : Int := 0
  lim3_seq : Int := 0
  lim1_action : String := ""
  lim2_action : String := ""
  lim3_action : String := ""
  lim1_type : String := ""
  lim2_type : String := ""
  lim3_type : String := ""
  lim1_comp : String := ""
  lim2_comp : String := ""
  lim3_comp : String := ""
  lim1_value : String := ""
  lim2_value : String := ""
  lim3_value : String := ""
  lim1_value_unit : String := ""
  lim2_value_unit : String := ""
  lim3_value_unit : String := ""
  rec_nb : Nat := 0
  rec1_type : String := ""
  rec2_type : String := ""
  rec3_type : String := ""
  rec1_value : String := ""
  rec2_value : String := ""
  rec3_value : String := ""
  rec1_value_unit : String := ""
  rec2_value_unit : String := ""
  rec3_value_unit : String := ""
deriving Repr, DecidableEq

/-- The blank sequence template copied for every new record. -/
def blankSeq : SeqRec := {}

/-- Indexed write of `lim1_seq`/`lim2_seq`/`lim3_seq` (Python writes the key
`"lim{n}_seq".format(lim_num)`; `lim_num` is always 1, 2 or 3 because the
limit count is checked first). -/
def setLimSeq (s : SeqRec) (n : Nat) (v : Int) : SeqRec :=
  match n with
  | 1 => { s with lim1_seq := v }
  | 2 => { s with lim2_seq := v }
  | 3 => { s with lim3_seq := v }
  | _ => s

/-- Indexed write of the limit action field. -/
def setLimAction (s : SeqRec) (n : Nat) (v : String) : SeqRec :=
  match n with
  | 1 => { s with lim1_action := v }
  | 2 => { s with lim2_action := v }
  | 3 => { s with lim3_action := v }
  | _ => s

/-- Indexed write of the limit type field. -/
def setLimType (s : SeqRec) (n : Nat) (v : String) : SeqRec :=
  match n with
  | 1 => { s with lim1_type := v }
  | 2 => { s with lim2_type := v }
  | 3 => { s with lim3_type := v }
  | _ => s

/-- Indexed write of the limit comparison field. -/
def setLimComp (s : SeqRec) (n : Nat) (v : String) : SeqRec :=
  match n with
  | 1 => { s with lim1_comp := v }
  | 2 => { s with lim2_comp := v }
  | 3 => { s with lim3_comp := v }
  | _ => s

/-- Indexed write of the limit value field. -/
def setLimValue (s : SeqRec) (n : Nat) (v : String) : SeqRec :=
  match n with
  | 1 => { s with lim1_value := v }
  | 2 => { s with lim2_value := v }
  | 3 => { s with lim3_value := v }
  | _ => s

/-- Indexed write of the limit value unit field. -/
def setLimValueUnit (s : SeqRec) (n : Nat) (v : String) : SeqRec :=
  match n with
  | 1 => { s with lim1_value_unit := v }
  | 2 => { s with lim2_value_unit := v }
  | 3 => { s with lim3_value_unit := v }
  | _ => s

/-- Indexed read of the limit action field. -/
def getLimAction (s : SeqRec) (n : Nat) : String :=
  match n with
  | 1 => s.lim1_action
  | 2 => s.lim2_action
  | 3 => s.lim3_action
  | _ => ""

/-- Indexed write of the report type field. -/
def setRecType (s : SeqRec) (n : Nat) (v : String) : SeqRec :=
  match n with
  | 1 => { s with rec1_type := v }
  | 2 => { s with rec2_type := v }
  | 3 => { s with rec3_type := v }
  | _ => s

/-- Indexed write of the report value field. -/
def setRecValue (s : SeqRec) (n : Nat) (v : String) : SeqRec :=
  match n with
  | 1 => { s with rec1_value := v }
  | 2 => { s with rec2_value := v }
  | 3 => { s with rec3_value := v }
  | _ => s

/-- Indexed write of the report value unit field. -/
def setRecValueUnit (s : SeqRec) (n : Nat) (v : String) : SeqRec :=
  match n with
  | 1 => { s with rec1_value_unit := v }
  | 2 => { s with rec2_value_unit := v }
  | 3 => { s with rec3_value_unit := v }
  | _ => s

/-! ### Source steps (the parsed Maccor AST handed to the converter) -/

/-- One `EndEntry` of a test step. -/
structure EndEntry where
  EndType : String
  Oper : String
  Value : String
  Step : String
deriving Repr, DecidableEq

/-- One `ReportEntry` of a test step. -/
structure ReportEntry where
  ReportType : String
  Value : String
deriving Repr, DecidableEq

/-- One Maccor `TestStep`. `Ends` and `Reports` hold the already
normalised entry lists (the Python code turns the xmltodict value — `None`,
a single dict, or a list — into a list before use). -/
structure TestStep where
  StepType : String
  StepMode : String := ""
  StepValue : String := ""
  Ends : List EndEntry := []
  Reports : List ReportEntry := []
deriving Repr, DecidableEq

/-- Every Python exception and failing assert of the converter. -/
inductive ConvErr
  | missingKey (k : Int)
  | keyError (k : String)
  | gotoOutOfBounds (stepNum : Int)
  | tooManyEndEntries (stepNum : Int)
  | tooManyReports (stepNum : Int)
  | unsupportedStepTimeOper (op : String)
  | unsupportedVoltageOper (op : String)
  | unsupportedStepType (t : String)
  | unsupportedStepMode (m : String)
  | unsupportedEndType (t : String)
  | unsupportedReportType (t : String)
  | advCycleAtStart
  | loopEndEntryShape (idx : Nat)
  | valueError (s : String)
  | stackUnderflow
  | badSteps
  | seqCountMismatch
deriving Repr, DecidableEq

/-- End-of-procedure marker index (`END_SEQ_NUM`). -/
def endSeqNum : Int := 9999

/-! ### Synthetic loop records -/

/-- Shallow embedding of `_create_loop_seq`. Note that the source sets
`ctrl_seq` to `seq_num` — the new record's own index — and never reads the
`seq_num_to_loop_to` parameter. -/
def createLoopSeq (seqNum seqNumToLoopTo numLoops : Int) : SeqRec :=
  { blankSeq with
    Ns := seqNum
    type := ("Loop")
    loop_repeat := numLoops
    ctrl_seq := seqNum
    lim1_seq := seqNum + 1
    lim2_seq := seqNum + 1
    lim3_seq := seqNum + 1
    applyIC := ("C / N")
    ctrl1_val := ("100.000") }

/-- Shallow embedding of `_create_advance_cyle_seqs`: the blank zero-repeat
loop followed by the one-repeat loop that emulates an advance-cycle step. -/
def createAdvanceCycleSeqs (seqNum : Int) : Except ConvErr (SeqRec × SeqRec) :=
  if seqNum = 0 then Except.error ConvErr.advCycleAtStart
  else Except.ok (createLoopSeq seqNum 0 0, createLoopSeq (seqNum + 1) seqNum 1)

/-! ### The step compiler (`_proc_step_to_seq`) -/

/-- The inclusive-operator degradation map (`operator_map`). -/
def operatorMap (op : String) : Option String :=
  if op = (">=") then some (">")
  else if op = ("<=") then some ("<")
  else none

/-- The end-type dispatch of the end-entry loop of `_proc_step_to_seq`,
applied to the record after the goto sequence and optional action flag
were written. A Python `KeyError` from `operator_map[end_oper]` is
`ConvErr.keyError`; the source's own
`if operator_map[end_oper] is None: raise …` guards are dead code,
because the dict subscript raises first. -/
def procEndEntryKind (limNum : Nat) (endEntry : EndEntry) (s2 : SeqRec) : Except ConvErr SeqRec :=
  if endEntry.EndType = ("StepTime") then
    if endEntry.Oper ≠ ("=") then Except.error (ConvErr.unsupportedStepTimeOper endEntry.Oper)
    else
      match convertTime endEntry.Value with
      | none => Except.error (ConvErr.valueError endEntry.Value)
      | some (limValue, limValueUnit) =>
          Except.ok (setLimComp (setLimValue (setLimValueUnit (setLimType s2 limNum ("Time"))
            limNum limValueUnit) limNum limValue) limNum (">"))
  else if endEntry.EndType = ("Voltage") then
    match operatorMap endEntry.Oper with
    | none => Except.error (ConvErr.keyError endEntry.Oper)
    | some op =>
      match convertVolts endEntry.Value with
      | none => Except.error (ConvErr.valueError endEntry.Value)
      | some (limValue, limValueUnit) =>
          Except.ok (setLimValueUnit (setLimValue (setLimType (setLimComp s2 limNum op)
            limNum ("Voltage")) limNum limValue) limNum limValueUnit)
  else if endEntry.EndType = ("Current") then
    match operatorMap endEntry.Oper with
    | none => Except.error (ConvErr.keyError endEntry.Oper)
    | some op =>
      match convertAmps endEntry.Value with
      | none => Except.error (ConvErr.valueError endEntry.Value)
      | some (limValue, limValueUnit) =>
          Except.ok (setLimValueUnit (setLimValue (setLimType (setLimComp s2 limNum op)
            limNum ("Current")) limNum limValue) limNum limValueUnit)
  else Except.error (ConvErr.unsupportedEndType endEntry.EndType)

/-- Shallow embedding of one iteration of the end-entry loop of
`_proc_step_to_seq` for the entry at (1-based) slot `limNum`: parse the
goto step number, check the loop-scoping bounds, look the target up in
the step→sequence map, write the goto sequence, set the explicit
`"Goto sequence"` action flag when the goto step number differs from
`step_num + 1`, then dispatch on the end-condition kind. -/
def procEndEntry (stepNum : Int) (limNum : Nat) (gotoLowerBound endStepNum : Int)
    (seqFromStepNum : List (Int × Int)) (endEntry : EndEntry) (s : SeqRec) : Except ConvErr SeqRec :=
  match parseInt endEntry.Step with
  | none => Except.error (ConvErr.valueError endEntry.Step)
  | some gotoStepNum =>
    if gotoStepNum < gotoLowerBound ∨ gotoStepNum > endStepNum then
      Except.error (ConvErr.gotoOutOfBounds stepNum)
    else
      match seqFromStepNum.lookup gotoStepNum with
      | none => Except.error (ConvErr.missingKey gotoStepNum)
      | some gotoSeq =>
        procEndEntryKind limNum endEntry
          (if gotoStepNum ≠ stepNum + 1
            then setLimAction (setLimSeq s limNum gotoSeq) limNum ("Goto sequence")
            else setLimSeq s limNum gotoSeq)

/-- Process the end entries in order, slot `limNum` counting up from 1. -/
def procEndEntries (stepNum : Int) (gotoLowerBound endStepNum : Int)
    (seqFromStepNum : List (Int × Int)) : List EndEntry → Nat → SeqRec → Except ConvErr SeqRec
  | [], _, s => Except.ok s
  | e :: es, limNum, s =>
      match procEndEntry stepNum limNum gotoLowerBound endStepNum seqFromStepNum e s with
      | Except.error err => Except.error err
      | Except.ok s2 => procEndEntries stepNum gotoLowerBound endStepNum seqFromStepNum es (limNum + 1) s2

/-- Shallow embedding of one iteration of the report loop of `_proc_step_to_seq`. -/
def procReportEntry (recNum : Nat) (report : ReportEntry) (s : SeqRec) : Except ConvErr SeqRec :=
  if report.ReportType = ("StepTime") then
    match convertTime report.Value with
    | none => Except.error (ConvErr.valueError report.Value)
    | some (recValue, recValueUnit) =>
        Except.ok (setRecValueUnit (setRecValue (setRecType s recNum ("Time")) recNum recValue) recNum recValueUnit)
  else if report.ReportType = ("Voltage") then
    match convertVolts report.Value with
    | none => Except.error (ConvErr.valueError report.Value)
    | some (recValue, recValueUnit) =>
        Except.ok (setRecValueUnit (setRecValue (setRecType s recNum ("Voltage")) recNum recValue) recNum recValueUnit)
  else if report.ReportType = ("Current") then
    match convertAmps report.Value with
    | none => Except.error (ConvErr.valueError report.Value)
    | some (recValue, recValueUnit) =>
        Except.ok (setRecValueUnit (setRecValue (setRecType s recNum ("Current")) recNum recValue) recNum recValueUnit)
  else Except.error (ConvErr.unsupportedReportType report.ReportType)

/-- Process the report entries in order, slot `recNum` counting up from 1. -/
def procReportEntries : List ReportEntry → Nat → SeqRec → Except ConvErr SeqRec
  | [], _, s => Except.ok s
  | r :: rs, recNum, s =>
      match procReportEntry recNum r s with
      | Except.error err => Except.error err
      | Except.ok s2 => procReportEntries rs (recNum + 1) s2

/-- Shallow embedding of `_proc_step_to_seq`: one physical (non-control-flow)
step becomes one sequence record. -/
def procStepToSeq (testStep : TestStep) (stepNum : Int) (seqFromStepNum : List (Int × Int))
    (gotoLowerBound endStepNum : Int) : Except ConvErr SeqRec :=
  match seqFromStepNum.lookup stepNum with
  | none => Except.error (ConvErr.missingKey stepNum)
  | some seqNum =>
    let s0 : SeqRec :=
      { blankSeq with Ns := seqNum, lim1_seq := seqNum + 1, lim2_seq := seqNum + 1, lim3_seq := seqNum + 1 }
    let typed : Except ConvErr SeqRec :=
      if testStep.StepType = ("Rest") then
        Except.ok { s0 with
          type := ("Rest"), applyIC := ("I"), N := ("1.00"), chargeDischarge := ("Charge") }
      else if testStep.StepType ≠ ("Charge") ∧ testStep.StepType ≠ ("Dischrge") then
        Except.error (ConvErr.unsupportedStepType testStep.StepType)
      else if testStep.StepMode = ("Current") then
        match convertAmps testStep.StepValue with
        | none => Except.error (ConvErr.valueError testStep.StepValue)
        | some (v, u) =>
            Except.ok { s0 with
              ctrl1_val := v, ctrl1_val_unit := u, type := ("CC"), applyIC := ("C / N"),
              ctrl1_val_vs := ("<None>"), N := ("15.00"),
              chargeDischarge := if testStep.StepType = ("Charge") then ("Charge") else ("Discharge") }
      else if testStep.StepMode = ("Voltage") then
        match convertAmps testStep.StepValue with
        | none => Except.error (ConvErr.valueError testStep.StepValue)
        | some (v, u) =>
            Except.ok { s0 with
              ctrl1_val := v, ctrl1_val_unit := u, type := ("CV"), applyIC := ("C / N"),
              ctrl1_val_vs := ("Ref"), N := ("15.00"),
              chargeDischarge := if testStep.StepType = ("Charge") then ("Charge") else ("Discharge") }
      else Except.error (ConvErr.unsupportedStepMode testStep.StepMode)
    match typed with
    | Except.error err => Except.error err
    | Except.ok s1 =>
      if testStep.Ends.length > 3 then Except.error (ConvErr.tooManyEndEntries stepNum)
      else
        match procEndEntries stepNum gotoLowerBound endStepNum seqFromStepNum testStep.Ends 1
            { s1 with lim_nb := testStep.Ends.length } with
        | Except.error err => Except.error err
        | Except.ok s3 =>
          if testStep.Reports.length > 3 then Except.error (ConvErr.tooManyReports stepNum)
          else procReportEntries testStep.Reports 1 { s3 with rec_nb := testStep.Reports.length }

/-! ### Loop unrolling (`_unroll_loop`) -/

/-- Goto rewriting inside an unrolled copy: indices in the inclusive range
`[lo, hi]` are shifted by `d`, all others stay. -/
def shiftGoto (lo hi d g : Int) : Int := if lo ≤ g ∧ g ≤ hi then g + d else g

/-- The copy of one record made in the `i`-th duplicate of the body: `Ns`
is shifted by `len(loop) * i`, and each of the three limit gotos is
shifted when it falls inside `[loop_start_seq_num, loop_post_seq_num]`
inclusive. No other field — in particular not `ctrl_seq` — is rewritten. -/
def unrollTransform (bodyLen : Nat) (i : Int) (loopStartSeqNum loopPostSeqNum : Int)
    (seq : SeqRec) : SeqRec :=
  { seq with
    Ns := seq.Ns + (bodyLen : Int) * i
    lim1_seq := shiftGoto loopStartSeqNum loopPostSeqNum ((bodyLen : Int) * i) seq.lim1_seq
    lim2_seq := shiftGoto loopStartSeqNum loopPostSeqNum ((bodyLen : Int) * i) seq.lim2_seq
    lim3_seq := shiftGoto loopStartSeqNum loopPostSeqNum ((bodyLen : Int) * i) seq.lim3_seq }

/-- Shallow embedding of `_unroll_loop`: the body followed by the copies
for `i = 1 … num_loops` (Python `range(1, num_loops + 1)`, empty when
`num_loops ≤ 0`). -/
def unrollLoop (loop : List SeqRec) (numLoops : Int) (loopStartSeqNum loopPostSeqNum : Int) :
    List SeqRec :=
  loop ++
    (List.map
      (fun (k : Nat) =>
        List.map (unrollTransform loop.length ((k : Int) + 1) loopStartSeqNum loopPostSeqNum) loop)
      (List.range numLoops.toNat)).flatten

/-! ### Pass 1 — sizing and unroll decision -/

/-- State of the sizing pass: the running sequence counter, the per-level
count stack and will-unroll stack (head = top of the Python list), the
step→sequence map, and the per-index unroll / advance-cycle-ignore
decisions recorded for pass 2. -/
structure St1 where
  currSeq : Int
  countStack : List Int
  unrollStack : List Bool
  seqMap : List (Int × Int)
  unrollByIdx : List (Nat × Bool)
  ignoreByIdx : List (Nat × Bool)
deriving Repr

/-- One iteration of the sizing loop, at index `idx` (`step_num = idx + 1`),
with `next` the following step (used only for `is_last_step_in_loop`). -/
def pass1Step (step next : TestStep) (idx : Nat) (st : St1) : Except ConvErr St1 :=
  match st.unrollStack with
  | [] => Except.error ConvErr.stackUnderflow
  | curUnroll :: unrollRest =>
    if step.StepType.data.take 2 = ['D', 'o'] then
      Except.ok { st with
        seqMap := ((idx : Int) + 1, st.currSeq) :: st.seqMap
        unrollStack := false :: true :: unrollRest
        countStack := 0 :: st.countStack }
    else if step.StepType = ("AdvCycle") ∧ next.StepType.data.take 4 = ['L', 'o', 'o', 'p'] ∧ ¬curUnroll then
      Except.ok { st with
        seqMap := ((idx : Int) + 1, st.currSeq) :: st.seqMap
        ignoreByIdx := (idx, true) :: st.ignoreByIdx }
    else if step.StepType = ("AdvCycle") then
      match st.countStack with
      | [] => Except.error ConvErr.stackUnderflow
      | c :: cs =>
        Except.ok { st with
          seqMap := ((idx : Int) + 1, st.currSeq) :: st.seqMap
          unrollStack := true :: unrollRest
          ignoreByIdx := (idx, false) :: st.ignoreByIdx
          countStack := (c + 2) :: cs
          currSeq := st.currSeq + 2 }
    else if step.StepType.data.take 4 = ['L', 'o', 'o', 'p'] then
      match step.Ends with
      | [e] =>
        if e.EndType ≠ ("Loop Cnt") then Except.error (ConvErr.loopEndEntryShape idx)
        else
          match parseInt e.Value with
          | none => Except.error (ConvErr.valueError e.Value)
          | some numLoops =>
            match st.countStack with
            | c :: c2 :: cs =>
              if curUnroll then
                Except.ok { st with
                  seqMap := ((idx : Int) + 1, st.currSeq) :: st.seqMap
                  unrollStack := unrollRest
                  unrollByIdx := (idx, curUnroll) :: st.unrollByIdx
                  countStack := (c2 + c * (numLoops + 1)) :: cs
                  currSeq := st.currSeq + c * numLoops }
              else
                Except.ok { st with
                  seqMap := ((idx : Int) + 1, st.currSeq) :: st.seqMap
                  unrollStack := unrollRest
                  unrollByIdx := (idx, curUnroll) :: st.unrollByIdx
                  countStack := (c2 + (c + 1)) :: cs
                  currSeq := st.currSeq + 1 }
            | _ => Except.error ConvErr.stackUnderflow
      | _ => Except.error (ConvErr.loopEndEntryShape idx)
    else if next.StepType.data.take 4 = ['L', 'o', 'o', 'p'] then
      match st.countStack with
      | [] => Except.error ConvErr.stackUnderflow
      | c :: cs =>
        Except.ok { st with
          seqMap := ((idx : Int) + 1, st.currSeq) :: st.seqMap
          unrollStack := true :: unrollRest
          countStack := (c + 1) :: cs
          currSeq := st.currSeq + 1 }
    else
      match st.countStack with
      | [] => Except.error ConvErr.stackUnderflow
      | c :: cs =>
        Except.ok { st with
          seqMap := ((idx : Int) + 1, st.currSeq) :: st.seqMap
          countStack := (c + 1) :: cs
          currSeq := st.currSeq + 1 }

/-- The sizing loop over `steps[0:-1]` (the terminal `End` step, the last
element of the list, is not iterated). -/
def pass1Go : List TestStep → Nat → St1 → Except ConvErr St1
  | [], _, _ => Except.error ConvErr.badSteps
  | [_], _, st => Except.ok st
  | step :: next :: rest, idx, st =>
      match pass1Step step next idx st with
      | Except.error e => Except.error e
      | Except.ok st2 => pass1Go (next :: rest) (idx + 1) st2

/-- Everything pass 1 hands to pass 2. -/
structure Pass1Out where
  seqMap : List (Int × Int)
  unrollByIdx : List (Nat × Bool)
  ignoreByIdx : List (Nat × Bool)
  preComputed : Int
deriving Repr

/-- Pass 1 of `_create_biologic_seqs_from_maccor_ast`: checks the list
ends with an `End` step, runs the sizing loop from the initial state
(`curr_seq_num = 0`, count stack `[0]`, unroll stack `[False]`, and the
synthetic terminal map entry `num_steps ↦ END_SEQ_NUM`), then performs the
source's own closing asserts (both stacks have one element left, and the
popped total equals the running counter). -/
def pass1 (steps : List TestStep) : Except ConvErr Pass1Out :=
  match steps.getLast? with
  | none => Except.error ConvErr.badSteps
  | some last =>
    if last.StepType ≠ ("End") then Except.error ConvErr.badSteps
    else
      match pass1Go steps 0
          { currSeq := 0, countStack := [0], unrollStack := [false],
            seqMap := [((steps.length : Int), endSeqNum)], unrollByIdx := [], ignoreByIdx := [] } with
      | Except.error e => Except.error e
      | Except.ok st =>
        match st.countStack, st.unrollStack with
        | [pre], [_] =>
            if pre = st.currSeq then
              Except.ok { seqMap := st.seqMap, unrollByIdx := st.unrollByIdx,
                          ignoreByIdx := st.ignoreByIdx, preComputed := pre }
            else Except.error ConvErr.seqCountMismatch
        | _, _ => Except.error ConvErr.stackUnderflow

/-! ### Pass 2 — generation -/

/-- State of the generation pass: the stack of in-progress record lists
(head = top), the stack of loop start sequence numbers, and the goto
lower bound. -/
structure St2 where
  seqStack : List (List SeqRec)
  loopStartStack : List Int
  gotoLB : Int
deriving Repr

/-- One iteration of the generation loop at index `idx`. -/
def pass2Step (p1 : Pass1Out) (endStepNum : Int) (step : TestStep) (idx : Nat) (st : St2) :
    Except ConvErr St2 :=
  match p1.seqMap.lookup ((idx : Int) + 1) with
  | none => Except.error (ConvErr.missingKey ((idx : Int) + 1))
  | some seqNum =>
    if step.StepType.data.take 2 = ['D', 'o'] then
      Except.ok { seqStack := [] :: st.seqStack,
                  loopStartStack := seqNum :: st.loopStartStack, gotoLB := (idx : Int) + 1 }
    else if step.StepType.data.take 4 = ['L', 'o', 'o', 'p'] then
      match st.loopStartStack with
      | [] => Except.error ConvErr.stackUnderflow
      | loopStartSeqNum :: lss =>
        match step.Ends with
        | [e] =>
          if e.EndType ≠ ("Loop Cnt") then Except.error (ConvErr.loopEndEntryShape idx)
          else
            match parseInt e.Value with
            | none => Except.error (ConvErr.valueError e.Value)
            | some numLoops =>
              match p1.unrollByIdx.lookup idx with
              | none => Except.error (ConvErr.missingKey (idx : Int))
              | some willUnroll =>
                match st.seqStack with
                | body :: parent :: rs =>
                  if willUnroll then
                    if ((unrollLoop body numLoops loopStartSeqNum seqNum).length : Int)
                        = (body.length : Int) * (numLoops + 1) then
                      Except.ok { seqStack :=
                                    (parent ++ unrollLoop body numLoops loopStartSeqNum seqNum) :: rs,
                                  loopStartStack := lss, gotoLB := (idx : Int) + 1 }
                    else Except.error ConvErr.seqCountMismatch
                  else
                    Except.ok { seqStack :=
                                  (parent ++ (body ++ [createLoopSeq seqNum loopStartSeqNum numLoops])) :: rs,
                                loopStartStack := lss, gotoLB := (idx : Int) + 1 }
                | _ => Except.error ConvErr.stackUnderflow
        | _ => Except.error (ConvErr.loopEndEntryShape idx)
    else if step.StepType = ("AdvCycle") then
      match p1.ignoreByIdx.lookup idx with
      | none => Except.error (ConvErr.missingKey (idx : Int))
      | some ignore =>
        if ignore then Except.ok st
        else
          match createAdvanceCycleSeqs seqNum with
          | Except.error e => Except.error e
          | Except.ok (blankLoopSeq, advCycleLoopSeq) =>
            match st.seqStack with
            | [] => Except.error ConvErr.stackUnderflow
            | top :: rs =>
              Except.ok { st with
                seqStack := (top ++ [blankLoopSeq, advCycleLoopSeq]) :: rs, gotoLB := (idx : Int) + 1 }
    else
      match procStepToSeq step ((idx : Int) + 1) p1.seqMap st.gotoLB endStepNum with
      | Except.error e => Except.error e
      | Except.ok seq =>
        match st.seqStack with
        | [] => Except.error ConvErr.stackUnderflow
        | top :: rs => Except.ok { st with seqStack := (top ++ [seq]) :: rs }

/-- The generation loop over `steps[0:-1]`, same iteration shape as the
sizing loop. -/
def pass2Go (p1 : Pass1Out) (endStepNum : Int) : List TestStep → Nat → St2 → Except ConvErr St2
  | [], _, _ => Except.error ConvErr.badSteps
  | [_], _, st => Except.ok st
  | step :: _next :: rest, idx, st =>
      match pass2Step p1 endStepNum step idx st with
      | Except.error e => Except.error e
      | Except.ok st2 => pass2Go p1 endStepNum (_next :: rest) (idx + 1) st2

/-- Pass 2 of `_create_biologic_seqs_from_maccor_ast`: generation from the
initial state (one empty list on the stack, goto lower bound 0), closing
with the source's assert that exactly one list is left on the stack. -/
def pass2 (steps : List TestStep) (p1 : Pass1Out) : Except ConvErr (List SeqRec) :=
  match pass2Go p1 (steps.length : Int) steps 0
      { seqStack := [[]], loopStartStack := [], gotoLB := 0 } with
  | Except.error e => Except.error e
  | Except.ok st =>
    match st.seqStack with
    | [seqs] => Except.ok seqs
    | _ => Except.error ConvErr.stackUnderflow

/-- Shallow embedding of `_create_biologic_seqs_from_maccor_ast`: pass 1,
pass 2, then the source's final assert
`len(seqs) == pre_computed_seq_count`. -/
def createBiologicSeqs (steps : List TestStep) : Except ConvErr (List SeqRec) :=
  match pass1 steps with
  | Except.error e => Except.error e
  | Except.ok p1 =>
    match pass2 steps p1 with
    | Except.error e => Except.error e
    | Except.ok seqs =>
      if (seqs.length : Int) = p1.preComputed then Except.ok seqs
      else Except.error ConvErr.seqCountMismatch

/-! ### Concrete procedures used by the claims -/

/-- A bare rest step. -/
def restStep : TestStep := { StepType := ("Rest") }

/-- The terminal step. -/
def endStep : TestStep := { StepType := ("End") }

/-- A `DO 1` step. -/
def doStep : TestStep := { StepType := ("Do 1") }

/-- An advance-cycle step. -/
def advStep : TestStep := { StepType := ("AdvCycle") }

/-- A `LOOP 1` terminator with repeat count 2. -/
def loopStep2 : TestStep :=
  { StepType := ("Loop 1"),
    Ends := [{ EndType := ("Loop Cnt"), Oper := ("="), Value := ("2"), Step := ("1") }] }

/-- Native-loop procedure: `Do, Rest, AdvCycle, Loop(2), End`. The deferred
advance cycle keeps `will_unroll = false`, so the generation pass appends
one synthesized Loop record for the loop ending at sequence 1 whose body
starts at sequence 0. -/
def c1Steps : List TestStep := [doStep, restStep, advStep, loopStep2, endStep]

/-- Procedure with a non-deferred advance cycle: `Rest, AdvCycle, End`,
producing the two-record advance-cycle emulation pair at sequences 1, 2. -/
def c2Steps : List TestStep := [restStep, advStep, endStep]

/-! ### C1 — the synthesized native Loop record -/

/-- C1: on `c1Steps` the generation pass appends exactly one synthesized
Loop record with the correct repeat count 2, but its loop-control target
`ctrl_seq` is `1` — the record's own index — not `0`, the sequence index
of the loop's first record. `_create_loop_seq` assigns
`loop_seq["ctrl_seq"] = seq_num` and never reads its `seq_num_to_loop_to`
parameter, contradicting the comment in `_create_advance_cyle_seqs` that
the loop-to target must be smaller than the `Ns` field. -/
theorem c1_create_loop_seq_bug :
    (createBiologicSeqs c1Steps).map (List.map (fun s => (s.type, s.Ns, s.loop_repeat, s.ctrl_seq)))
      = Except.ok [(("Rest"), (0 : Int), (0 : Int), (0 : Int)), (("Loop"), 1, 2, 1)]
    ∧ (1 : Int) ≠ 0 :=
  ⟨rfl, by decide⟩

/-! ### C2 — loop-control targets must be strictly below the record index -/

/-- C2: a successful conversion of `c2Steps` produces the advance-cycle
emulation pair whose records have `ctrl_seq` equal to their own index
`Ns` (1 and 2), not strictly less than it, so the claimed invariant fails
on the code. The same holds for the native Loop record of `c1Steps`. -/
theorem c2_ctrl_seq_invariant_bug :
    (createBiologicSeqs c2Steps).map (List.map (fun s => (s.type, s.Ns, s.ctrl_seq)))
      = Except.ok [(("Rest"), (0 : Int), (0 : Int)), (("Loop"), 1, 1), (("Loop"), 2, 2)]
    ∧ ¬((1 : Int) < 1) ∧ ¬((2 : Int) < 2) :=
  ⟨rfl, by decide, by decide⟩

/-! ### C3 — loop-control indices are not rewritten during unrolling -/

/-- A Loop-type record inside a loop body, with a loop-control index that
falls inside the loop's sequence-index range. -/
def c3CexRec : SeqRec :=
  { blankSeq with Ns := 5, type := ("Loop"), ctrl_seq := 5, lim1_seq := 6, lim2_seq := 6, lim3_seq := 6 }

/-- C3 counterexample: unrolling `[c3CexRec]` (body length 1) once with
range `[5, 6]` leaves the duplicate's loop-control index `ctrl_seq` at 5
— `_unroll_loop` rewrites only the three `lim*_seq` goto fields — whereas
the claim requires every loop-control index inside the range to be
increased by `i · L = 1`, i.e. to become 6. -/
theorem c3_ctrl_seq_not_shifted :
    (unrollLoop [c3CexRec] 1 5 6).map SeqRec.ctrl_seq = [5, 5] ∧ (5 : Int) + 1 * 1 ≠ 5 :=
  ⟨rfl, by decide⟩

/-! ### C7 — unmapped operators on Voltage/Current raise `KeyError` -/

/-- A Voltage end condition with the `=` operator. -/
def c7CexEntry : EndEntry := { EndType := ("Voltage"), Oper := ("="), Value := ("4.2"), Step := ("2") }

/-- C7: compiling a Voltage end condition with operator `=` fails with the
Python `KeyError` raised by the `operator_map[end_oper]` subscript, not
with the dedicated "Unsupported … operator" exception — the source's
`if operator_map[end_oper] is None: raise …` guard is dead code because
the dict subscript raises first. (The claim is otherwise right: `=` is
accepted only for StepTime and is emitted as `>`, and `>=`/`<=` degrade
to `>`/`<`; only the error identity diverges.) -/
theorem c7_operator_keyerror :
    procEndEntry 1 1 0 2 [(1, 0), (2, 9999)] c7CexEntry blankSeq
      = Except.error (ConvErr.keyError ("="))
    ∧ ConvErr.keyError ("=") ≠ ConvErr.unsupportedVoltageOper ("=")
    ∧ ConvErr.keyError ("=") ≠ ConvErr.unsupportedStepTimeOper ("=")
    ∧ ConvErr.keyError ("=") ≠ ConvErr.unsupportedEndType ("Voltage") :=
  ⟨rfl, by decide, by decide, by decide⟩

/-! ### C8 — the 12-nanoampere example -/

/-- C8 counterexample: the current converter does not map `"0.000000012"`
to picoamperes. -/
theorem c8_twelve_pico_counterexample :
    convertAmps ("0.000000012") ≠ some (("12.000"), ("pA")) := by decide

/-- C8 amended: `"0.000000012"` is 1.2·10⁻⁸ A = 12 nA; the converter maps
it to `("12.000", "nA")`. -/
theorem c8_amps_example : convertAmps ("0.000000012") = some (("12.000"), ("nA")) := rfl

/-! ### C9 — the duration examples -/

/-- C9: the duration converter maps `"::.5"` to 500 ms and `"3600::"` to
3600 hours, each formatted with three decimals. -/
theorem c9_time_examples :
    convertTime ("::.5") = some (("500.000"), ("ms"))
    ∧ convertTime ("3600::") = some (("3600.000"), ("hr")) :=
  ⟨rfl, rfl⟩

/-! ### C10 — unrolling with repeat count zero -/

/-- C10: `_unroll_loop` with `num_loops = 0` returns the body unchanged:
`range(1, 1)` is empty, so only the initial copy of the list survives. -/
theorem c10_unroll_zero_identity (loop : List SeqRec) (lo hi : Int) :
    unrollLoop loop 0 lo hi = loop := by
  simp [unrollLoop]

/-! ### C6 — significant-figure detection counterexample -/

/-- C6 counterexample: `"1.1000"` has four explicit fractional digits, but
the regex `\.([0-9]*[1-9])` captures only up to the last nonzero digit,
so the detected precision is 1, not 4; consequently the voltage converter
keeps the value in volts instead of rescaling it to millivolts as the
claim requires. -/
theorem c6_trailing_zero_counterexample :
    getDecimalSigFigs ("1.1000") = 1 ∧ (1 : Int) ≠ 4
    ∧ convertVolts ("1.1000") = some (("1.100"), ("V")) ∧ ("V") ≠ ("mV") :=
  ⟨rfl, by decide, rfl, by decide⟩

/-! ### C5 — the explicit jump action flag counterexample -/

/-- A rest step whose single end condition jumps to step 2. -/
def c5CexStep : TestStep :=
  { StepType := ("Rest"),
    Ends := [{ EndType := ("Voltage"), Oper := (">="), Value := ("4.2"), Step := ("2") }] }

/-- C5 counterexample: for step 1 of a two-step procedure whose end
condition targets step 2 (the End step, mapped to the reserved marker
9999), the emitted goto sequence 9999 differs from the immediately
following sequence 1, yet no `"Goto sequence"` action flag is set —
`_proc_step_to_seq` compares the goto step number with `step_num + 1`,
not the mapped sequence index with `seq_num + 1`. -/
theorem c5_step_goto_counterexample :
    (procStepToSeq c5CexStep 1 [(1, 0), (2, 9999)] 0 2).map (fun s => (s.lim1_seq, s.lim1_action))
      = Except.ok ((9999 : Int), (""))
    ∧ (9999 : Int) ≠ 0 + 1 :=
  ⟨rfl, by decide⟩

/-! ### C3 amended — what unrolling actually rewrites -/

/-- Length of the concatenation of `m` equal-length blocks. -/
theorem length_flatten_map_range {α : Type} (f : Nat → List α) (L m : Nat)
    (hf : ∀ j, (f j).length = L) : ((List.range m).map f).flatten.length = m * L := by
  induction m with
  | zero => simp
  | succ t ih =>
      rw [List.range_succ, List.map_append, List.flatten_append, List.length_append, ih]
      simp [hf, Nat.succ_mul]

/-- Indexing into the concatenation of `m` equal-length blocks. -/
theorem getElem_flatten_map_range {α : Type} (f : Nat → List α) (L m i k : Nat)
    (hf : ∀ j, (f j).length = L) (hk : k < L) (hi : i < m) :
    ((List.range m).map f).flatten[L * i + k]? = (f i)[k]? := by
  induction m with
  | zero => omega
  | succ t ih =>
      rw [List.range_succ, List.map_append, List.flatten_append]
      rcases Nat.lt_or_ge i t with h | h
      · rw [List.getElem?_append_left, ih h]
        rw [length_flatten_map_range f L t hf]
        have h1 : L * i + k < L * (i + 1) := by rw [Nat.mul_succ]; omega
        have h2 : L * (i + 1) ≤ L * t := Nat.mul_le_mul_left L h
        have h3 : L * t = t * L := Nat.mul_comm L t
        omega
      · have hit : i = t := by omega
        subst hit
        have hcm : L * i = i * L := Nat.mul_comm L i
        rw [List.getElem?_append_right (by rw [length_flatten_map_range f L i hf]; omega)]
        rw [length_flatten_map_range f L i hf]
        simp only [List.map_cons, List.map_nil, List.flatten_cons, List.flatten_nil, List.append_nil]
        congr 1
        omega

/-- C3 amended: unrolling a body of length `L` with repeat count `N ≥ 0`
yields exactly `L·(N+1)` records, and the record at position `L·i + k` of
the result (`1 ≤ i ≤ N`, `k < L`) is the `k`-th body record transformed by
`unrollTransform`: its `Ns` and its three limit gotos that fall inside the
inclusive range `[lo, hi]` are shifted by `L·i`, and nothing else — in
particular not `ctrl_seq` — changes. -/
theorem c3_unroll_spec (loop : List SeqRec) (n : Nat) (lo hi : Int) :
    (unrollLoop loop (n : Int) lo hi).length = loop.length * (n + 1)
    ∧ ∀ i k, 1 ≤ i → i ≤ n → ∀ hk : k < loop.length,
        (unrollLoop loop (n : Int) lo hi)[loop.length * i + k]? =
          some (unrollTransform loop.length (i : Int) lo hi (loop.get ⟨k, hk⟩)) := by
  constructor
  · unfold unrollLoop
    rw [List.length_append, Int.toNat_natCast,
      length_flatten_map_range _ loop.length n (fun j => by simp)]
    ring
  · intro i k h1 h2 hk
    unfold unrollLoop
    rw [Int.toNat_natCast]
    rw [List.getElem?_append_right (by nlinarith)]
    have hidx : loop.length * i + k - loop.length = loop.length * (i - 1) + k := by
      have : loop.length * i = loop.length * (i - 1) + loop.length := by
        rw [← Nat.mul_succ]
        congr 1
        omega
      omega
    rw [hidx]
    rw [getElem_flatten_map_range _ loop.length n (i - 1) k (fun j => by simp) hk (by omega)]
    rw [List.getElem?_map, List.getElem?_eq_getElem hk]
    have hcast : ((i - 1 : Nat) : Int) + 1 = (i : Int) := by
      have : ((i - 1 : Nat) : Int) = (i : Int) - 1 := by
        rw [Nat.cast_sub h1]
        simp
      omega
    rw [hcast]
    rfl

/-- A body record for the C3 witness, with one goto inside `[7, 8]`, one
outside, and one at the upper bound. -/
def c3WitRec : SeqRec :=
  { blankSeq with Ns := 7, ctrl_seq := 7, lim1_seq := 7, lim2_seq := 9, lim3_seq := 8 }

/-- Witness for `c3_unroll_spec` at the singleton body `[c3WitRec]`,
`N = 1`, range `[7, 8]`: the first duplicate's record. -/
theorem c3_unroll_spec_witness :
    (unrollLoop [c3WitRec] ((1 : Nat) : Int) 7 8)[1 * 1 + 0]? =
      some (unrollTransform 1 ((1 : Nat) : Int) 7 8 c3WitRec) :=
  (c3_unroll_spec [c3WitRec] 1 7 8).2 1 0 (by decide) (by decide) (by decide)

/-! ### C5 amended — when the explicit jump action flag is set -/

/-- Writing a limit goto sequence leaves the action fields alone. -/
theorem getLimAction_setLimSeq (s : SeqRec) (n m : Nat) (v : Int) :
    getLimAction (setLimSeq s n v) m = getLimAction s m := by
  unfold setLimSeq getLimAction
  split <;> (try split) <;> rfl

/-- Writing a limit type leaves the action fields alone. -/
theorem getLimAction_setLimType (s : SeqRec) (n m : Nat) (v : String) :
    getLimAction (setLimType s n v) m = getLimAction s m := by
  unfold setLimType getLimAction
  split <;> (try split) <;> rfl

/-- Writing a limit comparison leaves the action fields alone. -/
theorem getLimAction_setLimComp (s : SeqRec) (n m : Nat) (v : String) :
    getLimAction (setLimComp s n v) m = getLimAction s m := by
  unfold setLimComp getLimAction
  split <;> (try split) <;> rfl

/-- Writing a limit value leaves the action fields alone. -/
theorem getLimAction_setLimValue (s : SeqRec) (n m : Nat) (v : String) :
    getLimAction (setLimValue s n v) m = getLimAction s m := by
  unfold setLimValue getLimAction
  split <;> (try split) <;> rfl

/-- Writing a limit value unit leaves the action fields alone. -/
theorem getLimAction_setLimValueUnit (s : SeqRec) (n m : Nat) (v : String) :
    getLimAction (setLimValueUnit s n v) m = getLimAction s m := by
  unfold setLimValueUnit getLimAction
  split <;> (try split) <;> rfl

/-- The end-type dispatch writes only type/comparison/value/unit fields,
never an action field. -/
theorem getLimAction_procEndEntryKind (limNum : Nat) (e : EndEntry) (s s2 : SeqRec) (m : Nat)
    (h : procEndEntryKind limNum e s = Except.ok s2) :
    getLimAction s2 m = getLimAction s m := by
  unfold procEndEntryKind at h
  repeat' split at h
  all_goals first
    | exact Except.noConfusion h
    | (injection h with h2; subst h2;
       simp [getLimAction_setLimComp, getLimAction_setLimValue,
             getLimAction_setLimValueUnit, getLimAction_setLimType])

/-- C5 amended: for every successfully compiled end condition, the limit
slot's explicit `"Goto sequence"` action flag is set exactly when the goto
target STEP number differs from `step_num + 1`; the comparison is on
source step numbers, not on the mapped sequence index against the
sequence following the record. (`_proc_step_to_seq` folds `procEndEntry`
over the end entries with `limNum = 1, 2, 3` via `procEndEntries`.) -/
theorem c5_goto_flag (stepNum : Int) (limNum : Nat) (gotoLB endStepNum : Int)
    (seqMap : List (Int × Int)) (e : EndEntry) (s s2 : SeqRec) (g : Int)
    (hn : limNum = 1 ∨ limNum = 2 ∨ limNum = 3)
    (hg : parseInt e.Step = some g)
    (h : procEndEntry stepNum limNum gotoLB endStepNum seqMap e s = Except.ok s2) :
    getLimAction s2 limNum =
      if g = stepNum + 1 then getLimAction s limNum else ("Goto sequence") := by
  unfold procEndEntry at h
  split at h
  next hnone => exact Except.noConfusion h
  next gsn hsome =>
    rw [hg] at hsome
    injection hsome with h3
    subst h3
    split at h
    next => exact Except.noConfusion h
    next hbounds =>
      split at h
      next hlk => exact Except.noConfusion h
      next gotoSeq hlk =>
        have hpres := getLimAction_procEndEntryKind limNum e _ s2 limNum h
        by_cases heq : g = stepNum + 1
        · rw [if_pos heq, hpres, if_neg (not_not_intro heq)]
          exact getLimAction_setLimSeq s limNum limNum gotoSeq
        · rw [if_neg heq, hpres, if_pos heq]
          rcases hn with hn | hn | hn <;> subst hn <;> rfl

/-- The end entry used by the C5 witness. -/
def c5WitEntry : EndEntry :=
  { EndType := ("Voltage"), Oper := (">="), Value := ("4.2"), Step := ("2") }

/-- The record `procEndEntry` produces from `blankSeq` for `c5WitEntry`
at step 1 with map `{1 ↦ 0, 2 ↦ 9999}`. -/
def c5WitOut : SeqRec :=
  { blankSeq with
    lim1_seq := 9999
    lim1_comp := (">")
    lim1_type := ("Voltage")
    lim1_value := ("4.200")
    lim1_value_unit := ("V") }

/-- Witness for `c5_goto_flag`: the goto targets step 2 = 1 + 1, so no
flag is set even though the mapped sequence is the end marker 9999. -/
theorem c5_goto_flag_witness :
    getLimAction c5WitOut 1 =
      if (2 : Int) = 1 + 1 then getLimAction blankSeq 1 else ("Goto sequence") :=
  c5_goto_flag 1 1 0 2 [(1, 0), (2, 9999)] c5WitEntry blankSeq c5WitOut 2 (Or.inl rfl) rfl rfl

/-! ### C6 amended — what the sig-figs scan actually counts -/

/-- A decimal digit is not a dot. -/
theorem isDigit_ne_dot {c : Char} (h : c.isDigit) : c ≠ '.' := by
  intro he
  subst he
  simp [Char.isDigit] at h

/-- A decimal digit is not an exponent marker. -/
theorem isDigit_ne_e {c : Char} (h : c.isDigit) : c ≠ 'e' ∧ c ≠ 'E' := by
  constructor <;> intro he <;> subst he <;> simp [Char.isDigit] at h

/-- The fractional-digit scan finds nothing in a dot-free string. -/
theorem sigFigsGo_no_dot (l : List Char) (h : ∀ c ∈ l, c ≠ '.') : sigFigsGo l = 0 := by
  induction l with
  | nil => rfl
  | cons c rest ih =>
      unfold sigFigsGo
      rw [if_neg (h c (List.mem_cons_self c rest))]
      exact ih (fun d hd => h d (List.mem_cons_of_mem c hd))

/-- The exponent scan finds nothing in an `e`/`E`-free string. -/
theorem p10Go_no_e (l : List Char) (h : ∀ c ∈ l, c ≠ 'e' ∧ c ≠ 'E') : p10Go l = 0 := by
  induction l with
  | nil => rfl
  | cons c rest ih =>
      unfold p10Go
      rw [if_neg (by
        rcases h c (List.mem_cons_self c rest) with ⟨h1, h2⟩
        simp [h1, h2])]
      exact ih (fun d hd => h d (List.mem_cons_of_mem c hd))

/-- `takeWhile isDigit` keeps an all-digit list whole. -/
theorem takeWhile_isDigit_all (b : List Char) (hb : ∀ c ∈ b, c.isDigit) :
    b.takeWhile Char.isDigit = b := by
  induction b with
  | nil => rfl
  | cons c rest ih =>
      rw [List.takeWhile_cons, if_pos (hb c (List.mem_cons_self c rest))]
      rw [ih (fun d hd => hb d (List.mem_cons_of_mem c hd))]

/-- On `a ++ "." ++ b` with `a`, `b` digit runs, the fractional-digit scan
returns the digits of `b` up to and including its last nonzero digit —
not `b.length`, the count of all explicit fractional digits. -/
theorem sigFigsGo_digits_dot (a b : List Char) (ha : ∀ c ∈ a, c.isDigit) (hb : ∀ c ∈ b, c.isDigit) :
    sigFigsGo (a ++ '.' :: b) = b.length - trailingZeros b := by
  induction a with
  | nil =>
      simp only [List.nil_append]
      unfold sigFigsGo
      rw [if_pos rfl, takeWhile_isDigit_all b hb]
      by_cases hz : b.any (fun d => d != '0')
      · rw [if_pos hz]
      · rw [if_neg hz]
        have hall : ∀ c ∈ b, c = '0' := by
          intro c hc
          by_contra hne
          exact hz (List.any_eq_true.mpr ⟨c, hc, by simp [hne]⟩)
        have htz : trailingZeros b = b.length := by
          unfold trailingZeros
          rw [List.takeWhile_eq_self_iff.mpr (by
            intro c hc
            simp [hall c (List.mem_reverse.mp hc)])]
          simp
        rw [sigFigsGo_no_dot b (fun c hc => isDigit_ne_dot (hb c hc))]
        omega
  | cons c rest ih =>
      rw [List.cons_append]
      unfold sigFigsGo
      rw [if_neg (isDigit_ne_dot (ha c (List.mem_cons_self c rest)))]
      exact ih (fun d hd => ha d (List.mem_cons_of_mem c hd))

/-- A digits-dot-digits string has no exponent part. -/
theorem p10Go_digits_dot (a b : List Char) (ha : ∀ c ∈ a, c.isDigit) (hb : ∀ c ∈ b, c.isDigit) :
    p10Go (a ++ '.' :: b) = 0 := by
  apply p10Go_no_e
  intro c hc
  rcases List.mem_append.mp hc with h | h
  · exact isDigit_ne_e (ha c h)
  · rcases List.mem_cons.mp h with h | h
    · subst h
      constructor <;> decide
    · exact isDigit_ne_e (hb c h)

/-- C6 amended: for every exponent-free decimal magnitude string
`a ++ "." ++ b` (`a`, `b` digit runs), the detected precision is the
number of fractional digits up to and including the last nonzero one
(`b.length - trailingZeros b`, and `0` when the fraction is all zeros) —
trailing fractional zeros are dropped by the regex capture, so the
precision is not the count of all explicit fractional digits. The
rescale test of each converter then compares this value against the
3-digit budget exactly as the claim states. -/
theorem c6_sig_figs (a b : List Char) (ha : ∀ c ∈ a, c.isDigit) (hb : ∀ c ∈ b, c.isDigit) :
    getDecimalSigFigs (String.mk (a ++ '.' :: b)) = ((b.length - trailingZeros b : Nat) : Int) := by
  unfold getDecimalSigFigs
  show ((sigFigsGo (a ++ '.' :: b) : Int)) - p10Go (a ++ '.' :: b) = _
  rw [sigFigsGo_digits_dot a b ha hb, p10Go_digits_dot a b ha hb]
  simp

/-- Witness for `c6_sig_figs` at the claim's own example `"1.1000"`:
four explicit fractional digits but detected precision 1. -/
theorem c6_sig_figs_witness :
    getDecimalSigFigs (String.mk (['1'] ++ '.' :: ['1', '0', '0', '0'])) = 1 :=
  c6_sig_figs ['1'] ['1', '0', '0', '0'] (by decide) (by decide)

/-! ### C4 — the sizing pass total equals the generation pass total -/

/-- Looking a key up past a cons with a different key. -/
theorem lookup_cons_ne {β : Type} {k idx : Nat} {b : β} {t : List (Nat × β)} (hne : k ≠ idx) :
    List.lookup k ((idx, b) :: t) = List.lookup k t := by
  rw [List.lookup_cons]
  rw [show (k == idx) = false from beq_eq_false_iff_ne.mpr hne]

/-- Looking up the key just consed on. -/
theorem lookup_cons_self {β : Type} {idx : Nat} {b : β} {t : List (Nat × β)} :
    List.lookup idx ((idx, b) :: t) = some b := by
  rw [List.lookup_cons]
  rw [show (idx == idx) = true from beq_self_eq_true idx]

/-- One sizing iteration only records decisions under the key `idx`, so
every other key keeps its lookup in both decision maps. -/
theorem pass1Step_dicts (step next : TestStep) (idx : Nat) (st st2 : St1)
    (h : pass1Step step next idx st = Except.ok st2) (k : Nat) (hk : k ≠ idx) :
    List.lookup k st2.unrollByIdx = List.lookup k st.unrollByIdx
    ∧ List.lookup k st2.ignoreByIdx = List.lookup k st.ignoreByIdx := by
  unfold pass1Step at h
  repeat' split at h
  all_goals first
    | exact Except.noConfusion h
    | (injection h with h2; subst h2;
       exact ⟨by simp [lookup_cons_ne hk], by simp [lookup_cons_ne hk]⟩)

/-- The rest of the sizing loop, starting at `idx`, never changes the
lookup of a key below `idx` in either decision map. -/
theorem pass1Go_lookup_lt :
    ∀ (pending : List TestStep) (idx : Nat) (st out : St1),
      pass1Go pending idx st = Except.ok out →
      ∀ k : Nat, k < idx →
        List.lookup k out.unrollByIdx = List.lookup k st.unrollByIdx
        ∧ List.lookup k out.ignoreByIdx = List.lookup k st.ignoreByIdx
  | [], _, _, _ => by
      intro h
      exact Except.noConfusion h
  | [x], _, st, out => by
      intro h k hk
      simp only [pass1Go] at h
      injection h with h2
      subst h2
      exact ⟨rfl, rfl⟩
  | step :: next :: rest, idx, st, out => by
      intro h k hk
      simp only [pass1Go] at h
      cases hst : pass1Step step next idx st with
      | error e => rw [hst] at h; exact Except.noConfusion h
      | ok stM =>
        rw [hst] at h
        have ih := pass1Go_lookup_lt (next :: rest) (idx + 1) stM out h k (by omega)
        have hd := pass1Step_dicts step next idx st stM hst k (by omega)
        exact ⟨ih.1.trans hd.1, ih.2.trans hd.2⟩

/-- One step of the two passes preserves the count invariant: the sizing
pass's count stack is the pointwise length of the generation pass's
record-list stack, provided the generation pass reads the decisions the
sizing pass recorded at this index. -/
theorem step_counts (p1 : Pass1Out) (eS : Int) (step next : TestStep) (idx : Nat)
    (st1 st1' : St1) (st2 st2' : St2)
    (h1 : pass1Step step next idx st1 = Except.ok st1')
    (h2 : pass2Step p1 eS step idx st2 = Except.ok st2')
    (hu : List.lookup idx p1.unrollByIdx = List.lookup idx st1'.unrollByIdx)
    (hi : List.lookup idx p1.ignoreByIdx = List.lookup idx st1'.ignoreByIdx)
    (hinv : st1.countStack = st2.seqStack.map (fun l => (l.length : Int))) :
    st1'.countStack = st2'.seqStack.map (fun l => (l.length : Int)) := by
  unfold pass2Step at h2
  split at h2
  next => exact Except.noConfusion h2
  next seqNum hsn =>
  unfold pass1Step at h1
  split at h1
  next => exact Except.noConfusion h1
  next curUnroll unrollRest hus =>
  by_cases hDo : step.StepType.data.take 2 = ['D', 'o']
  · rw [if_pos hDo] at h1 h2
    injection h1 with h1e
    injection h2 with h2e
    subst h1e
    subst h2e
    simp [hinv]
  · rw [if_neg hDo] at h1 h2
    by_cases hAdv : step.StepType = ("AdvCycle")
    · have hL4 : ¬(step.StepType.data.take 4 = ['L', 'o', 'o', 'p']) := by
        rw [hAdv]; decide
      rw [if_neg hL4, if_pos hAdv] at h2
      by_cases hB2 : step.StepType = ("AdvCycle")
          ∧ next.StepType.data.take 4 = ['L', 'o', 'o', 'p'] ∧ ¬curUnroll
      · -- deferred advance cycle: no record, no count
        rw [if_pos hB2] at h1
        injection h1 with h1e
        subst h1e
        rw [lookup_cons_self] at hi
        rw [hi] at h2
        simp only [Except.ok.injEq, if_true] at h2
        subst h2
        simpa using hinv
      · -- emitted advance cycle: two records, count + 2
        rw [if_neg hB2, if_pos hAdv] at h1
        split at h1
        next => exact Except.noConfusion h1
        next c cs hcs =>
        injection h1 with h1e
        subst h1e
        rw [lookup_cons_self] at hi
        rw [hi] at h2
        simp only [if_false, Bool.false_eq_true, if_neg] at h2
        split at h2
        next => exact Except.noConfusion h2
        next blankLoopSeq advCycleLoopSeq hpair =>
        split at h2
        next hss =>
          rw [hcs, hss] at hinv
          simp at hinv
        next top rs hss =>
          injection h2 with h2e
          subst h2e
          rw [hcs, hss] at hinv
          simp only [List.map_cons] at hinv
          injection hinv with hh ht
          simp only [List.map_cons, List.length_append]
          rw [hh, ht]
          norm_cast
    · -- neither Do nor AdvCycle
      have hB2 : ¬(step.StepType = ("AdvCycle")
          ∧ next.StepType.data.take 4 = ['L', 'o', 'o', 'p'] ∧ ¬curUnroll = true) := by
        intro hc
        exact hAdv hc.1
      rw [if_neg hB2, if_neg hAdv] at h1
      by_cases hL4 : step.StepType.data.take 4 = ['L', 'o', 'o', 'p']
      · -- Loop terminator
        rw [if_pos hL4] at h1
        rw [if_pos hL4] at h2
        split at h2
        next => exact Except.noConfusion h2
        next ls lss hls =>
        split at h1
        next e hE =>
          split at h2
          next e2 hE2 =>
            rw [hE] at hE2
            injection hE2 with hE3
            subst hE3
            split at h1
            next hET => exact Except.noConfusion h1
            next hET =>
              rw [if_neg hET] at h2
              split at h1
              next hNL => exact Except.noConfusion h1
              next numLoops hNL =>
                split at h2
                next hNL2 => rw [hNL] at hNL2; exact Option.noConfusion hNL2
                next numLoops2 hNL2 =>
                  rw [hNL] at hNL2
                  injection hNL2 with hNL3
                  subst hNL3
                  split at h1
                  next c c2 cs hcs =>
                    split at h1
                    next hcu =>
                      -- will unroll: the source's own length assert gives
                      -- the unrolled body length
                      injection h1 with h1e
                      subst h1e
                      rw [lookup_cons_self] at hu
                      split at h2
                      next hW => rw [hW] at hu; exact Option.noConfusion hu
                      next willUnroll hW =>
                        rw [hW] at hu
                        injection hu with hu2
                        subst hu2
                        split at h2
                        next body parent rs hss =>
                          rw [if_pos hcu] at h2
                          split at h2
                          next hlen =>
                            injection h2 with h2e
                            subst h2e
                            rw [hcs, hss] at hinv
                            simp only [List.map_cons] at hinv
                            injection hinv with hh hinv2
                            injection hinv2 with hh2 ht
                            simp only [List.map_cons, List.length_append]
                            rw [hh, hh2, ht]
                            congr 1
                            push_cast
                            omega
                          next => exact Except.noConfusion h2
                        next hss => exact Except.noConfusion h2
                    next hcu =>
                      -- native loop: body plus one synthesized Loop record
                      injection h1 with h1e
                      subst h1e
                      rw [lookup_cons_self] at hu
                      split at h2
                      next hW => rw [hW] at hu; exact Option.noConfusion hu
                      next willUnroll hW =>
                        rw [hW] at hu
                        injection hu with hu2
                        subst hu2
                        split at h2
                        next body parent rs hss =>
                          rw [if_neg hcu] at h2
                          injection h2 with h2e
                          subst h2e
                          rw [hcs, hss] at hinv
                          simp only [List.map_cons] at hinv
                          injection hinv with hh hinv2
                          injection hinv2 with hh2 ht
                          simp only [List.map_cons, List.length_append]
                          rw [hh, hh2, ht]
                          norm_cast
                        next hss => exact Except.noConfusion h2
                  next hdef2 => exact Except.noConfusion h1
          next hdef =>
            exact absurd hE (hdef e)
        next hdef =>
          split at h2
          next e2 hE2 => exact absurd hE2 (hdef e2)
          next => exact Except.noConfusion h2
      · -- physical step: one record, count + 1
        rw [if_neg hL4] at h1
        rw [if_neg hL4, if_neg hAdv] at h2
        split at h2
        next herr => exact Except.noConfusion h2
        next seq hseq2 =>
        split at h2
        next hss =>
          split at h1 <;> split at h1 <;>
            first
              | exact Except.noConfusion h1
              | (rename_i c cs hcs
                 rw [hcs, hss] at hinv
                 simp at hinv)
        next top rs hss =>
          injection h2 with h2e
          subst h2e
          split at h1 <;> split at h1 <;>
            first
              | exact Except.noConfusion h1
              | (rename_i c cs hcs
                 injection h1 with h1e
                 subst h1e
                 rw [hcs, hss] at hinv
                 simp only [List.map_cons] at hinv
                 injection hinv with hh ht
                 simp only [List.map_cons, List.length_append]
                 rw [hh, ht]
                 norm_cast)

/-- The two passes keep the count invariant over any remaining step list,
when the generation pass consumes the decisions the sizing run ends with. -/
theorem counts_agree (p1 : Pass1Out) (eS : Int) :
    ∀ (pending : List TestStep) (idx : Nat) (st1 : St1) (st2 : St2) (out1 : St1) (out2 : St2),
      pass1Go pending idx st1 = Except.ok out1 →
      pass2Go p1 eS pending idx st2 = Except.ok out2 →
      p1.unrollByIdx = out1.unrollByIdx →
      p1.ignoreByIdx = out1.ignoreByIdx →
      st1.countStack = st2.seqStack.map (fun l => (l.length : Int)) →
      out1.countStack = out2.seqStack.map (fun l => (l.length : Int))
  | [], _, _, _, _, _ => by
      intro h1
      exact fun _ _ _ _ => absurd h1 (by simp [pass1Go])
  | [x], _, st1, st2, out1, out2 => by
      intro h1 h2 _ _ hinv
      simp only [pass1Go] at h1
      simp only [pass2Go] at h2
      injection h1 with h1e
      injection h2 with h2e
      subst h1e
      subst h2e
      exact hinv
  | step :: next :: rest, idx, st1, st2, out1, out2 => by
      intro h1 h2 hpu hpi hinv
      simp only [pass1Go] at h1
      simp only [pass2Go] at h2
      cases hs1 : pass1Step step next idx st1 with
      | error e => rw [hs1] at h1; exact Except.noConfusion h1
      | ok st1M =>
        rw [hs1] at h1
        cases hs2 : pass2Step p1 eS step idx st2 with
        | error e => rw [hs2] at h2; exact Except.noConfusion h2
        | ok st2M =>
          rw [hs2] at h2
          have hlk := pass1Go_lookup_lt (next :: rest) (idx + 1) st1M out1 h1 idx (by omega)
          exact counts_agree p1 eS (next :: rest) (idx + 1) st1M st2M out1 out2 h1 h2 hpu hpi
            (step_counts p1 eS step next idx st1 st1M st2 st2M hs1 hs2
              (by rw [hpu, hlk.1]) (by rw [hpi, hlk.2]) hinv)

/-- C4: whenever the sizing pass and the generation pass both succeed on a
step list, the generation pass produces exactly `pre_computed_seq_count`
sequence records — the source's final
`assert len(seqs) == pre_computed_seq_count` can never fire. -/
theorem c4_sizing_equals_generation (steps : List TestStep) (p1 : Pass1Out) (seqs : List SeqRec)
    (h1 : pass1 steps = Except.ok p1) (h2 : pass2 steps p1 = Except.ok seqs) :
    (seqs.length : Int) = p1.preComputed := by
  unfold pass1 at h1
  split at h1
  next => exact Except.noConfusion h1
  next last hlast =>
    split at h1
    next => exact Except.noConfusion h1
    next hend =>
      split at h1
      next => exact Except.noConfusion h1
      next out1 hgo1 =>
        split at h1
        next pre u hcs hus =>
          split at h1
          next hpc =>
            injection h1 with h1e
            subst h1e
            unfold pass2 at h2
            split at h2
            next => exact Except.noConfusion h2
            next out2 hgo2 =>
              split at h2
              next seqs2 hss =>
                injection h2 with h2e
                subst h2e
                have := counts_agree
                  { seqMap := out1.seqMap, unrollByIdx := out1.unrollByIdx,
                    ignoreByIdx := out1.ignoreByIdx, preComputed := pre }
                  (steps.length : Int) steps 0
                  { currSeq := 0, countStack := [0], unrollStack := [false],
                    seqMap := [((steps.length : Int), endSeqNum)], unrollByIdx := [], ignoreByIdx := [] }
                  { seqStack := [[]], loopStartStack := [], gotoLB := 0 }
                  out1 out2 hgo1 hgo2 rfl rfl (by simp)
                rw [hcs, hss] at this
                simp only [List.map_cons, List.map_nil] at this
                injection this with hh
                exact hh.symm
              next => exact Except.noConfusion h2
          next => exact Except.noConfusion h1
        next => exact Except.noConfusion h1

/-- The two-step procedure and pass-1 output for the C4 witness. -/
def c4WitSteps : List TestStep := [restStep, endStep]

/-- What `pass1` computes on `c4WitSteps`. -/
def c4WitP1 : Pass1Out :=
  { seqMap := [(1, 0), (2, 9999)], unrollByIdx := [], ignoreByIdx := [], preComputed := 1 }

/-- The single record `pass2` generates on `c4WitSteps`. -/
def c4WitSeq : SeqRec :=
  { blankSeq with
    Ns := 0, type := ("Rest"), applyIC := ("I"), N := ("1.00"), chargeDischarge := ("Charge"),
    lim1_seq := 1, lim2_seq := 1, lim3_seq := 1 }

/-- Witness for `c4_sizing_equals_generation`: on `[Rest, End]` pass 1
computes 1 and pass 2 generates exactly one record. -/
theorem c4_sizing_equals_generation_witness :
    (([c4WitSeq] : List SeqRec).length : Int) = c4WitP1.preComputed :=
  c4_sizing_equals_generation c4WitSteps c4WitP1 [c4WitSeq] rfl rfl
